import Mathlib

/-!
Verification of the tabular diff engine in `excel_diff.py`.

The engine compares two versions of a workbook sheet-by-sheet and
cell-by-cell.  Cells are opaque strings with `""` as the blank sentinel
(the upstream extractor stringifies workbook values; `str` is the identity
on the strings the engine receives, so the `str(cell) if cell != "" else ""`
re-stringification in the source is the identity here).  The definitions
below are a direct shallow embedding of `normalize_dimensions`,
`compare_sheets`, `create_single_sheet_diff` and the sheet-comparison loop
of `main`.
-/

namespace ExcelDiff

/-- A cell value: a string, `""` meaning blank. -/
abbrev Cell := String

/-- A row: an ordered sequence of cell values. -/
abbrev Row := List Cell

/-- A grid: an ordered sequence of rows (possibly ragged). -/
abbrev Grid := List Row

/-- The per-cell diff classification produced by `compare_sheets`
(the `"type"` field of the per-cell dictionaries in the source). -/
inductive DiffCell where
  | unchanged (value : String)
  | added (value : String)
  | deleted (value : String)
  | modified (old_value new_value : String)
deriving DecidableEq, Repr

/-- The `row_type` field of a diff row. -/
inductive RowType where
  | unchanged
  | added_row
  | deleted_row
deriving DecidableEq, Repr

/-- One entry of a diff grid: `{"row_type": ..., "cells": [...]}`. -/
structure DiffRow where
  row_type : RowType
  cells : List DiffCell
deriving DecidableEq, Repr

/-- Whether a diff cell is the `unchanged` variant. -/
def DiffCell.isUnchanged : DiffCell → Bool
  | .unchanged _ => true
  | _ => false

/-- `max((len(row) for row in data), default=0)`. -/
def max_row_len (data : Grid) : Nat :=
  (data.map List.length).foldr max 0

/-- The inner `pad_data` helper of `normalize_dimensions`: produce `rows`
rows, copying existing rows right-padded with `""` to `cols` cells and
synthesizing all-`""` rows past the end of `data`. -/
def pad_data (data : Grid) (rows cols : Nat) : Grid :=
  (List.range rows).map fun i =>
    match data[i]? with
    | some row => row ++ List.replicate (cols - row.length) ""
    | none => List.replicate cols ""

/-- `normalize_dimensions(data1, data2)`: pad both grids to the
element-wise maximum of their shapes. -/
def normalize_dimensions (data1 data2 : Grid) : Grid × Grid :=
  let max_rows := max data1.length data2.length
  let max_cols := max (max_row_len data1) (max_row_len data2)
  (pad_data data1 max_rows max_cols, pad_data data2 max_rows max_cols)

/-- The body of the per-cell loop of `compare_sheets`: the diff cell
appended to the row, paired with whether this branch sets
`has_differences` to `True`. -/
def compare_cell (cell1 cell2 : Cell) : DiffCell × Bool :=
  if cell1 = cell2 then
    (DiffCell.unchanged cell1, false)
  else if cell1 = "" ∧ cell2 ≠ "" then
    (DiffCell.added cell2, true)
  else if cell1 ≠ "" ∧ cell2 = "" then
    (DiffCell.deleted cell1, true)
  else
    (DiffCell.modified cell1 cell2, true)

/-- `all(cell == "" for cell in row)`. -/
def row_empty (row : Row) : Bool :=
  row.all (· == "")

/-- The row-type computation of `compare_sheets`: whole-row emptiness of
the two (normalized) rows, independent of the per-cell results. -/
def classify_row (row1 row2 : Row) : RowType :=
  if row_empty row1 && !(row_empty row2) then RowType.added_row
  else if !(row_empty row1) && row_empty row2 then RowType.deleted_row
  else RowType.unchanged

/-- The per-row cell loop of `compare_sheets`: the list of diff cells for
one row pair, and whether any cell of the row set `has_differences`. -/
def compare_row (row1 row2 : Row) : List DiffCell × Bool :=
  let steps := (row1.zip row2).map fun p => compare_cell p.1 p.2
  (steps.map Prod.fst, steps.any Prod.snd)

/-- `compare_sheets(data1, data2)`: normalize, then diff row-by-row and
cell-by-cell; `has_differences` is set whenever any cell branch other than
`unchanged` is taken. -/
def compare_sheets (data1 data2 : Grid) : List DiffRow × Bool :=
  let norm := normalize_dimensions data1 data2
  let pairs := norm.1.zip norm.2
  (pairs.map fun p => DiffRow.mk (classify_row p.1 p.2) (compare_row p.1 p.2).1,
   pairs.any fun p => (compare_row p.1 p.2).2)

/-- The `diff_type` argument of `create_single_sheet_diff`:
`'added'` for sheets only in the new workbook, `'deleted'` for sheets only
in the old workbook. -/
inductive DiffType where
  | added
  | deleted
deriving DecidableEq, Repr

/-- `create_single_sheet_diff(data, diff_type)`: tag every cell and every
row with the one-sided diff type, preserving the grid's shape. -/
def create_single_sheet_diff (data : Grid) (diff_type : DiffType) : List DiffRow :=
  data.map fun row_data =>
    DiffRow.mk
      (if diff_type = DiffType.added then RowType.added_row else RowType.deleted_row)
      (row_data.map fun cell =>
        match diff_type with
        | DiffType.added => DiffCell.added cell
        | DiffType.deleted => DiffCell.deleted cell)

/-- The `status` field of a sheet comparison. -/
inductive SheetStatus where
  | compared
  | only_in_old
  | only_in_new
deriving DecidableEq, Repr

/-- One entry of the `comparisons` list built by `main`. -/
structure SheetComparison where
  name : String
  status : SheetStatus
  has_differences : Bool
  diff_grid : List DiffRow
deriving DecidableEq, Repr

/-- A workbook as a sheet-name-to-grid mapping (a Python dict, modelled as
an association list; key order carries the dict's iteration order). -/
abbrev SheetMap := List (String × Grid)

/-- Dict indexing `wb[sheet_name]` (used only under a membership check in
the source, so the default is never reached there). -/
def lookup_grid (sheets : SheetMap) (name : String) : Grid :=
  (sheets.lookup name).getD []

/-- The sheet-comparison loop of `main`: iterate the sorted union of the
two workbooks' sheet-name sets and classify each sheet's status. -/
def workbook_comparisons (old_sheets new_sheets : SheetMap) : List SheetComparison :=
  let sheets1 := old_sheets.map Prod.fst
  let sheets2 := new_sheets.map Prod.fst
  let all_sheets := (sheets1 ++ sheets2).dedup
  (List.insertionSort (· ≤ ·) all_sheets).map fun sheet_name =>
    if sheet_name ∈ sheets1 ∧ sheet_name ∈ sheets2 then
      let r := compare_sheets (lookup_grid old_sheets sheet_name)
        (lookup_grid new_sheets sheet_name)
      SheetComparison.mk sheet_name SheetStatus.compared r.2 r.1
    else if sheet_name ∈ sheets1 then
      SheetComparison.mk sheet_name SheetStatus.only_in_old true
        (create_single_sheet_diff (lookup_grid old_sheets sheet_name) DiffType.deleted)
    else
      SheetComparison.mk sheet_name SheetStatus.only_in_new true
        (create_single_sheet_diff (lookup_grid new_sheets sheet_name) DiffType.added)

/-- Swapping the roles of old and new in a diff cell (used to state the
antisymmetry of `compare_sheets`). -/
def DiffCell.swap : DiffCell → DiffCell
  | .unchanged v => .unchanged v
  | .added v => .deleted v
  | .deleted v => .added v
  | .modified a b => .modified b a

/-! Sanity checks: the concrete scenarios of the specification, evaluated
on the embedded engine. -/

theorem scenario_identical :
    compare_sheets [["a", "b"]] [["a", "b"]] =
      ([DiffRow.mk RowType.unchanged
          [DiffCell.unchanged "a", DiffCell.unchanged "b"]], false) := by
  decide

theorem scenario_added_cell :
    compare_sheets [["a", ""]] [["a", "c"]] =
      ([DiffRow.mk RowType.unchanged
          [DiffCell.unchanged "a", DiffCell.added "c"]], true) := by
  decide

theorem scenario_deleted_row :
    compare_sheets [["x", "y"]] [["", ""]] =
      ([DiffRow.mk RowType.deleted_row
          [DiffCell.deleted "x", DiffCell.deleted "y"]], true) := by
  decide

theorem scenario_added_row :
    compare_sheets [[]] [["new"]] =
      ([DiffRow.mk RowType.added_row [DiffCell.added "new"]], true) := by
  decide

theorem scenario_workbook :
    workbook_comparisons [("S1", [["a"]])] [("S1", [["a"]]), ("S2", [["p", "q"]])] =
      [SheetComparison.mk "S1" SheetStatus.compared false
         [DiffRow.mk RowType.unchanged [DiffCell.unchanged "a"]],
       SheetComparison.mk "S2" SheetStatus.only_in_new true
         [DiffRow.mk RowType.added_row [DiffCell.added "p", DiffCell.added "q"]]] := by
  have h12 : ("S1" : String) ≤ "S2" := String.le_iff_toList_le.mpr (by decide)
  have hsort : List.insertionSort (α := String) (· ≤ ·) ["S1", "S2"] = ["S1", "S2"] := by
    simp [List.insertionSort, List.orderedInsert, h12]
  have hded : ((([("S1", [["a"]])] : SheetMap).map Prod.fst
      ++ ([("S1", [["a"]]), ("S2", [["p", "q"]])] : SheetMap).map Prod.fst).dedup)
      = ["S1", "S2"] := by decide
  unfold workbook_comparisons
  simp only [hded, hsort]
  decide

/-! Helper lemmas. -/

theorem compare_cell_self (a : Cell) :
    compare_cell a a = (DiffCell.unchanged a, false) := by
  simp [compare_cell]

theorem row_empty_eq_true (row : Row) :
    row_empty row = true ↔ ∀ c ∈ row, c = "" := by
  simp [row_empty, List.all_eq_true]

theorem row_empty_eq_false (row : Row) :
    row_empty row = false ↔ ∃ c ∈ row, c ≠ "" := by
  simp [row_empty, List.all_eq_false]

/-- Claim C1: for every pair of cell values (compared as their string
forms), the per-cell classification of the two-sided comparison follows
the ordered rule: `old == new` gives `unchanged old`; else
`old == "" and new != ""` gives `added new`; else `old != "" and new == ""`
gives `deleted old`; otherwise (both nonempty and different) it gives
`modified old new`. -/
theorem cell_classification_rule (old new : Cell) :
    (old = new → (compare_cell old new).1 = DiffCell.unchanged old) ∧
    (old ≠ new → old = "" → new ≠ "" →
      (compare_cell old new).1 = DiffCell.added new) ∧
    (old ≠ new → old ≠ "" → new = "" →
      (compare_cell old new).1 = DiffCell.deleted old) ∧
    (old ≠ new → old ≠ "" → new ≠ "" →
      (compare_cell old new).1 = DiffCell.modified old new) := by
  refine ⟨fun h => by simp [compare_cell, h],
    fun h h1 h2 => by subst h1; simp [compare_cell, h, h2],
    fun h h1 h2 => by subst h2; simp [compare_cell, h, h1],
    fun h h1 h2 => by simp [compare_cell, h, h1, h2]⟩

/-- Claim C2: in two-sided comparison the `row_type` of every row is
computed by `classify_row` on the pair of normalized rows (independently
of the per-cell results), and `classify_row` yields `added_row` iff the
old row is all-blank and the new row has a nonblank cell, `deleted_row`
iff the old row has a nonblank cell and the new row is all-blank, and
`unchanged` in every other case. -/
theorem row_classification_rule :
    (∀ (data1 data2 : Grid),
      (compare_sheets data1 data2).1.map DiffRow.row_type =
        ((normalize_dimensions data1 data2).1.zip
          (normalize_dimensions data1 data2).2).map
            (fun p => classify_row p.1 p.2)) ∧
    (∀ (row1 row2 : Row),
      (classify_row row1 row2 = RowType.added_row ↔
        ((∀ c ∈ row1, c = "") ∧ ∃ c ∈ row2, c ≠ "")) ∧
      (classify_row row1 row2 = RowType.deleted_row ↔
        ((∃ c ∈ row1, c ≠ "") ∧ ∀ c ∈ row2, c = "")) ∧
      (classify_row row1 row2 = RowType.unchanged ↔
        (¬((∀ c ∈ row1, c = "") ∧ ∃ c ∈ row2, c ≠ "") ∧
         ¬((∃ c ∈ row1, c ≠ "") ∧ ∀ c ∈ row2, c = "")))) := by
  constructor
  · intro data1 data2
    simp [compare_sheets, List.map_map, Function.comp]
  · intro row1 row2
    simp only [← row_empty_eq_true, ← row_empty_eq_false]
    cases he1 : row_empty row1 <;> cases he2 : row_empty row2 <;>
      simp [classify_row, he1, he2]

theorem pad_data_length (data : Grid) (rows cols : Nat) :
    (pad_data data rows cols).length = rows := by
  simp [pad_data]

theorem le_max_row_len (data : Grid) (row : Row) (h : row ∈ data) :
    row.length ≤ max_row_len data := by
  induction data with
  | nil => cases h
  | cons r t ih =>
    have hm : max_row_len (r :: t) = max r.length (max_row_len t) := rfl
    rcases List.mem_cons.mp h with h | h
    · rw [hm, h]; exact le_max_left _ _
    · rw [hm]; exact le_trans (ih h) (le_max_right _ _)

theorem pad_data_getElem (data : Grid) (rows cols i : Nat) (h : i < rows) :
    (pad_data data rows cols)[i]? =
      some (match data[i]? with
        | some row => row ++ List.replicate (cols - row.length) ""
        | none => List.replicate cols "") := by
  simp [pad_data, List.getElem?_map, List.getElem?_range, h]

theorem pad_data_row_length (data : Grid) (rows cols : Nat)
    (hc : ∀ row ∈ data, row.length ≤ cols) :
    ∀ row ∈ pad_data data rows cols, row.length = cols := by
  intro row hrow
  simp only [pad_data, List.mem_map, List.mem_range] at hrow
  obtain ⟨i, _, heq⟩ := hrow
  cases hd : data[i]? with
  | none => rw [hd] at heq; simp [← heq]
  | some r =>
    rw [hd] at heq
    have hr : r ∈ data := List.getElem?_mem hd
    have : r.length ≤ cols := hc r hr
    simp [← heq, Nat.add_sub_cancel' this]

theorem compare_row_length (row1 row2 : Row) :
    (compare_row row1 row2).1.length = min row1.length row2.length := by
  simp [compare_row]

/-- Claim C3: normalization pads both grids to exactly
`max(rows(g1), rows(g2))` rows of exactly
`max(max_row_len g1, max_row_len g2)` cells each, padding with `""` and
never truncating (every original row reappears extended at the same
index); consequently the diff grid of a two-sided comparison has exactly
`max(rows)` rows of that common column count. -/
theorem normalization_shape (g1 g2 : Grid) :
    ((normalize_dimensions g1 g2).1.length = max g1.length g2.length) ∧
    ((normalize_dimensions g1 g2).2.length = max g1.length g2.length) ∧
    (∀ row ∈ (normalize_dimensions g1 g2).1,
      row.length = max (max_row_len g1) (max_row_len g2)) ∧
    (∀ row ∈ (normalize_dimensions g1 g2).2,
      row.length = max (max_row_len g1) (max_row_len g2)) ∧
    (∀ (i : Nat) (row : Row), g1[i]? = some row →
      (normalize_dimensions g1 g2).1[i]? =
        some (row ++ List.replicate
          (max (max_row_len g1) (max_row_len g2) - row.length) "")) ∧
    (∀ (i : Nat) (row : Row), g2[i]? = some row →
      (normalize_dimensions g1 g2).2[i]? =
        some (row ++ List.replicate
          (max (max_row_len g1) (max_row_len g2) - row.length) "")) ∧
    ((compare_sheets g1 g2).1.length = max g1.length g2.length) ∧
    (∀ dr ∈ (compare_sheets g1 g2).1,
      dr.cells.length = max (max_row_len g1) (max_row_len g2)) := by
  have hc1 : ∀ row ∈ g1, row.length ≤ max (max_row_len g1) (max_row_len g2) :=
    fun row h => le_trans (le_max_row_len g1 row h) (le_max_left _ _)
  have hc2 : ∀ row ∈ g2, row.length ≤ max (max_row_len g1) (max_row_len g2) :=
    fun row h => le_trans (le_max_row_len g2 row h) (le_max_right _ _)
  refine ⟨pad_data_length _ _ _, pad_data_length _ _ _,
    pad_data_row_length _ _ _ hc1, pad_data_row_length _ _ _ hc2,
    ?_, ?_, ?_, ?_⟩
  · intro i row h
    have hi : i < max g1.length g2.length :=
      lt_of_lt_of_le (List.getElem?_eq_some.mp h).1 (le_max_left _ _)
    rw [show (normalize_dimensions g1 g2).1 =
      pad_data g1 (max g1.length g2.length)
        (max (max_row_len g1) (max_row_len g2)) from rfl]
    rw [pad_data_getElem _ _ _ _ hi, h]
  · intro i row h
    have hi : i < max g1.length g2.length :=
      lt_of_lt_of_le (List.getElem?_eq_some.mp h).1 (le_max_right _ _)
    rw [show (normalize_dimensions g1 g2).2 =
      pad_data g2 (max g1.length g2.length)
        (max (max_row_len g1) (max_row_len g2)) from rfl]
    rw [pad_data_getElem _ _ _ _ hi, h]
  · simp [compare_sheets, normalize_dimensions, List.length_zip, pad_data_length]
  · intro dr hdr
    simp only [compare_sheets, List.mem_map] at hdr
    obtain ⟨p, hp, heq⟩ := hdr
    have hmem := List.of_mem_zip hp
    have h1 : p.1.length = max (max_row_len g1) (max_row_len g2) :=
      pad_data_row_length _ _ _ hc1 p.1 hmem.1
    have h2 : p.2.length = max (max_row_len g1) (max_row_len g2) :=
      pad_data_row_length _ _ _ hc2 p.2 hmem.2
    rw [← heq]
    simp [compare_row_length, h1, h2]

theorem compare_cell_flag (a b : Cell) :
    (compare_cell a b).2 = true ↔
      ∀ v, (compare_cell a b).1 ≠ DiffCell.unchanged v := by
  unfold compare_cell
  split_ifs with h1 h2 h3 <;> simp

theorem cells_flag (l : List (Cell × Cell)) :
    ((l.map fun p => compare_cell p.1 p.2).any Prod.snd = true) ↔
      ∃ c ∈ (l.map fun p => compare_cell p.1 p.2).map Prod.fst,
        ∀ v, c ≠ DiffCell.unchanged v := by
  induction l with
  | nil => simp
  | cons p t ih =>
    simp only [List.map_cons, List.any_cons, Bool.or_eq_true, List.mem_cons,
      exists_eq_or_imp]
    exact or_congr (compare_cell_flag p.1 p.2) ih

theorem compare_row_flag (row1 row2 : Row) :
    (compare_row row1 row2).2 = true ↔
      ∃ c ∈ (compare_row row1 row2).1, ∀ v, c ≠ DiffCell.unchanged v :=
  cells_flag (row1.zip row2)

/-- Claim C4: for every pair of input grids, the `has_differences` flag
returned by the two-sided comparison is true if and only if at least one
diff cell of the resulting diff grid is not `unchanged`. -/
theorem has_differences_iff (g1 g2 : Grid) :
    (compare_sheets g1 g2).2 = true ↔
      ∃ dr ∈ (compare_sheets g1 g2).1, ∃ c ∈ dr.cells,
        ∀ v, c ≠ DiffCell.unchanged v := by
  simp only [compare_sheets, List.any_eq_true, List.mem_map]
  constructor
  · rintro ⟨p, hp, hflag⟩
    exact ⟨DiffRow.mk (classify_row p.1 p.2) (compare_row p.1 p.2).1,
      ⟨p, hp, rfl⟩, (compare_row_flag p.1 p.2).mp hflag⟩
  · rintro ⟨dr, ⟨p, hp, rfl⟩, c, hc, hne⟩
    exact ⟨p, hp, (compare_row_flag p.1 p.2).mpr ⟨c, hc, hne⟩⟩

/-- Claim C5: one-sided comparison tags every cell `deleted` (diff type
`'deleted'`, sheets only in the old workbook) or `added` (diff type
`'added'`, sheets only in the new workbook) with the cell's own value,
regardless of blanks, and tags every row `deleted_row` / `added_row`
regardless of emptiness; no `unchanged` cell or row is ever produced. -/
theorem single_sided_total (data : Grid) :
    (create_single_sheet_diff data DiffType.deleted =
      data.map (fun row => DiffRow.mk RowType.deleted_row
        (row.map DiffCell.deleted))) ∧
    (create_single_sheet_diff data DiffType.added =
      data.map (fun row => DiffRow.mk RowType.added_row
        (row.map DiffCell.added))) ∧
    (∀ dt : DiffType, ∀ dr ∈ create_single_sheet_diff data dt,
      dr.row_type ≠ RowType.unchanged ∧
        ∀ c ∈ dr.cells, ∀ v, c ≠ DiffCell.unchanged v) := by
  refine ⟨by simp [create_single_sheet_diff], by simp [create_single_sheet_diff], ?_⟩
  intro dt dr hdr
  simp only [create_single_sheet_diff, List.mem_map] at hdr
  obtain ⟨row, _, rfl⟩ := hdr
  cases dt <;> simp

theorem any_map_general {α β : Type} (l : List α) (f : α → β) (p : β → Bool) :
    (l.map f).any p = l.any (fun a => p (f a)) := by
  induction l with
  | nil => rfl
  | cons a t ih => simp [ih]

theorem compare_cell_symm (a b : Cell) :
    (compare_cell b a).1 = DiffCell.swap (compare_cell a b).1 ∧
    (compare_cell b a).2 = (compare_cell a b).2 := by
  unfold compare_cell
  by_cases hab : a = b
  · subst hab; simp [DiffCell.swap]
  · have hba : b ≠ a := fun h => hab h.symm
    by_cases ha : a = "" <;> by_cases hb : b = "" <;>
      simp_all [DiffCell.swap]

theorem compare_cell_symm_pair (q : Cell × Cell) :
    compare_cell q.2 q.1 =
      (DiffCell.swap (compare_cell q.1 q.2).1, (compare_cell q.1 q.2).2) :=
  Prod.ext (compare_cell_symm q.1 q.2).1 (compare_cell_symm q.1 q.2).2

theorem compare_row_symm (row1 row2 : Row) :
    (compare_row row2 row1).1 = (compare_row row1 row2).1.map DiffCell.swap ∧
    (compare_row row2 row1).2 = (compare_row row1 row2).2 := by
  have hz : row2.zip row1 = (row1.zip row2).map Prod.swap :=
    (List.zip_swap row1 row2).symm
  constructor
  · show ((row2.zip row1).map fun p => compare_cell p.1 p.2).map Prod.fst =
      (((row1.zip row2).map fun p => compare_cell p.1 p.2).map Prod.fst).map
        DiffCell.swap
    rw [hz]
    simp only [List.map_map]
    apply List.map_congr_left
    intro q _
    simp only [Function.comp_apply]
    exact (compare_cell_symm q.1 q.2).1
  · show ((row2.zip row1).map fun p => compare_cell p.1 p.2).any Prod.snd =
      ((row1.zip row2).map fun p => compare_cell p.1 p.2).any Prod.snd
    rw [hz]
    simp only [any_map_general]
    exact congrArg (List.any (row1.zip row2))
      (funext fun a => (compare_cell_symm a.1 a.2).2)

theorem normalize_dimensions_symm (g1 g2 : Grid) :
    normalize_dimensions g2 g1 =
      ((normalize_dimensions g1 g2).2, (normalize_dimensions g1 g2).1) := by
  unfold normalize_dimensions
  rw [Nat.max_comm g2.length g1.length,
    Nat.max_comm (max_row_len g2) (max_row_len g1)]

/-- Claim C7: the results of `compare_sheets g1 g2` and
`compare_sheets g2 g1` are related cell-by-cell by swapping `added` with
`deleted` and exchanging the two fields of every `modified` cell, with
`unchanged` cells identical, and the `has_differences` flag is the same in
both directions. -/
theorem antisymmetry (g1 g2 : Grid) :
    (compare_sheets g2 g1).2 = (compare_sheets g1 g2).2 ∧
    (compare_sheets g2 g1).1.map DiffRow.cells =
      ((compare_sheets g1 g2).1.map DiffRow.cells).map
        (List.map DiffCell.swap) := by
  have hz : (normalize_dimensions g1 g2).2.zip (normalize_dimensions g1 g2).1 =
      ((normalize_dimensions g1 g2).1.zip (normalize_dimensions g1 g2).2).map
        Prod.swap :=
    (List.zip_swap _ _).symm
  constructor
  · show ((normalize_dimensions g2 g1).1.zip (normalize_dimensions g2 g1).2).any
        (fun p => (compare_row p.1 p.2).2) = _
    rw [normalize_dimensions_symm, hz]
    simp only [any_map_general]
    exact congrArg (List.any _)
      (funext fun a => (compare_row_symm a.1 a.2).2)
  · show (((normalize_dimensions g2 g1).1.zip (normalize_dimensions g2 g1).2).map
        (fun p => DiffRow.mk (classify_row p.1 p.2) (compare_row p.1 p.2).1)).map
          DiffRow.cells =
      ((((normalize_dimensions g1 g2).1.zip (normalize_dimensions g1 g2).2).map
        (fun p => DiffRow.mk (classify_row p.1 p.2) (compare_row p.1 p.2).1)).map
          DiffRow.cells).map (List.map DiffCell.swap)
    rw [normalize_dimensions_symm, hz]
    simp only [List.map_map]
    apply List.map_congr_left
    intro p _
    simp only [Function.comp_apply]
    exact (compare_row_symm p.1 p.2).1

theorem zip_self {α : Type} (l : List α) :
    l.zip l = l.map (fun x => (x, x)) := by
  induction l with
  | nil => rfl
  | cons a t ih => simp [List.zip_cons_cons, ih]

theorem compare_row_self (row : Row) :
    compare_row row row = (row.map DiffCell.unchanged, false) := by
  unfold compare_row
  rw [zip_self, List.map_map]
  have hcc : ((fun p : Cell × Cell => compare_cell p.1 p.2) ∘ fun x => (x, x)) =
      (fun c => (DiffCell.unchanged c, false)) :=
    funext fun c => compare_cell_self c
  rw [hcc]
  simp [List.map_map, any_map_general, Function.comp, List.any_eq_false]

/-- Claim C8: two-sided comparison of a grid with itself (ragged or empty
included) yields `has_differences = false` and every diff cell
`unchanged`. -/
theorem reflexivity (g : Grid) :
    (compare_sheets g g).2 = false ∧
    ∀ dr ∈ (compare_sheets g g).1, ∀ c ∈ dr.cells, c.isUnchanged = true := by
  have hp : (normalize_dimensions g g).1 = (normalize_dimensions g g).2 := rfl
  constructor
  · show ((normalize_dimensions g g).1.zip (normalize_dimensions g g).2).any
        (fun p => (compare_row p.1 p.2).2) = false
    rw [← hp, zip_self, any_map_general]
    simp [compare_row_self]
  · intro dr hdr
    have hdr2 : dr ∈ ((normalize_dimensions g g).1.zip
        (normalize_dimensions g g).2).map
          (fun p => DiffRow.mk (classify_row p.1 p.2) (compare_row p.1 p.2).1) := hdr
    rw [← hp, zip_self, List.map_map] at hdr2
    obtain ⟨r, _, heq⟩ := List.mem_map.mp hdr2
    intro c hc
    rw [← heq] at hc
    simp only [Function.comp_apply, compare_row_self] at hc
    obtain ⟨v, _, hv⟩ := List.mem_map.mp hc
    rw [← hv]
    rfl

/-- Claim C9: the engine is total over well-formed grids: normalization
and two-sided comparison are defined on all inputs, including grids with
zero rows or zero columns, and comparing two empty grids yields an empty
diff grid with `has_differences = false`. -/
theorem total_engine :
    (∀ g1 g2 : Grid, ∃ n1 n2 : Grid, normalize_dimensions g1 g2 = (n1, n2)) ∧
    (∀ g1 g2 : Grid, ∃ (dg : List DiffRow) (b : Bool),
      compare_sheets g1 g2 = (dg, b)) ∧
    compare_sheets ([] : Grid) ([] : Grid) = ([], false) ∧
    compare_sheets ([[]] : Grid) ([[]] : Grid) =
      ([DiffRow.mk RowType.unchanged []], false) ∧
    normalize_dimensions ([] : Grid) ([] : Grid) = ([], []) :=
  ⟨fun g1 g2 => ⟨(normalize_dimensions g1 g2).1, (normalize_dimensions g1 g2).2, rfl⟩,
   fun g1 g2 => ⟨(compare_sheets g1 g2).1, (compare_sheets g1 g2).2, rfl⟩,
   by decide, by decide, by decide⟩

/-- Claim C10: one-sided comparison preserves the input grid's exact
shape without normalization: one diff row per input row, one diff cell per
input cell carrying that cell's value in order; in particular ragged
inputs yield ragged diff rows, so the uniform-column-count invariant of
two-sided results does not hold here. -/
theorem single_sided_shape (data : Grid) (dt : DiffType) :
    ((create_single_sheet_diff data dt).length = data.length) ∧
    (∀ i : Nat, (create_single_sheet_diff data dt)[i]?.map
        (fun dr => dr.cells.length) = data[i]?.map List.length) ∧
    (∀ i j : Nat,
      ((create_single_sheet_diff data dt)[i]?.bind (fun dr => dr.cells[j]?)) =
        (data[i]?.bind (fun row => row[j]?)).map (fun v =>
          match dt with
          | DiffType.added => DiffCell.added v
          | DiffType.deleted => DiffCell.deleted v)) ∧
    ((create_single_sheet_diff [["a"], ["b", "c"]] DiffType.added).map
        (fun dr => dr.cells.length) = [1, 2]) := by
  refine ⟨by simp [create_single_sheet_diff], ?_, ?_, by decide⟩
  · intro i
    simp only [create_single_sheet_diff, List.getElem?_map]
    cases data[i]? <;> simp
  · intro i j
    simp only [create_single_sheet_diff, List.getElem?_map]
    cases data[i]? with
    | none => simp
    | some row =>
      cases dt <;> simp [List.getElem?_map]

theorem lookup_eq_of_perm {β : Type} (a : String) (l1 l2 : List (String × β))
    (h : l1.Perm l2) :
    (l1.map Prod.fst).Nodup → l1.lookup a = l2.lookup a := by
  induction h with
  | nil => intro _; rfl
  | cons x p ih =>
    intro nd
    obtain ⟨k, v⟩ := x
    have nd' := (List.nodup_cons.mp nd).2
    cases hak : a == k <;> simp [List.lookup, hak]
    exact ih nd'
  | swap x y l =>
    intro nd
    obtain ⟨k1, v1⟩ := x
    obtain ⟨k2, v2⟩ := y
    have hne : k2 ≠ k1 := by
      have h1 := (List.nodup_cons.mp nd).1
      exact fun h => h1 (List.mem_cons.mpr (Or.inl h))
    cases hak1 : a == k1 <;> cases hak2 : a == k2 <;>
      simp [List.lookup, hak1, hak2]
    exact absurd ((eq_of_beq hak2).symm.trans (eq_of_beq hak1)) hne
  | trans p1 p2 ih1 ih2 =>
    intro nd
    exact (ih1 nd).trans (ih2 (((p1.map Prod.fst).nodup_iff).mp nd))

theorem workbook_names (old_sheets new_sheets : SheetMap) :
    (workbook_comparisons old_sheets new_sheets).map SheetComparison.name =
      List.insertionSort (· ≤ ·)
        ((old_sheets.map Prod.fst ++ new_sheets.map Prod.fst).dedup) := by
  unfold workbook_comparisons
  simp only [List.map_map]
  conv_rhs => rw [← List.map_id (List.insertionSort (· ≤ ·)
    ((old_sheets.map Prod.fst ++ new_sheets.map Prod.fst).dedup))]
  apply List.map_congr_left
  intro a _
  simp only [Function.comp_apply, id_eq]
  split
  · rfl
  · split <;> rfl

theorem workbook_comparisons_perm (old2 new2 old1 new1 : SheetMap)
    (ho : old2.Perm old1) (hn : new2.Perm new1)
    (ndo : (old1.map Prod.fst).Nodup) (ndn : (new1.map Prod.fst).Nodup) :
    workbook_comparisons old2 new2 = workbook_comparisons old1 new1 := by
  have hk1 : (old2.map Prod.fst).Perm (old1.map Prod.fst) := ho.map Prod.fst
  have hk2 : (new2.map Prod.fst).Perm (new1.map Prod.fst) := hn.map Prod.fst
  have hall : ((old2.map Prod.fst ++ new2.map Prod.fst).dedup).Perm
      ((old1.map Prod.fst ++ new1.map Prod.fst).dedup) := (hk1.append hk2).dedup
  have hsorted : List.insertionSort (α := String) (· ≤ ·)
        ((old2.map Prod.fst ++ new2.map Prod.fst).dedup) =
      List.insertionSort (· ≤ ·)
        ((old1.map Prod.fst ++ new1.map Prod.fst).dedup) := by
    haveI : IsAntisymm String (· ≤ ·) := ⟨fun a b h1 h2 => le_antisymm h1 h2⟩
    exact List.eq_of_perm_of_sorted
      (((List.perm_insertionSort _ _).trans hall).trans
        (List.perm_insertionSort _ _).symm)
      (List.sorted_insertionSort _ _) (List.sorted_insertionSort _ _)
  unfold workbook_comparisons
  simp only [hsorted]
  apply List.map_congr_left
  intro a _
  have hm1 : (a ∈ old2.map Prod.fst) = (a ∈ old1.map Prod.fst) :=
    propext hk1.mem_iff
  have hm2 : (a ∈ new2.map Prod.fst) = (a ∈ new1.map Prod.fst) :=
    propext hk2.mem_iff
  have hl1 : lookup_grid old2 a = lookup_grid old1 a := by
    unfold lookup_grid
    rw [lookup_eq_of_perm a old2 old1 ho (hk1.nodup_iff.mpr ndo)]
  have hl2 : lookup_grid new2 a = lookup_grid new1 a := by
    unfold lookup_grid
    rw [lookup_eq_of_perm a new2 new1 hn (hk2.nodup_iff.mpr ndn)]
  simp only [hm1, hm2, hl1, hl2]

/-- Claim C6: workbook comparison produces exactly one sheet comparison
per name in the lexicographically sorted union of the two key sets, in
that order regardless of input map ordering (proved as invariance under
permutation of the association lists with duplicate-free keys); a name in
both maps gets status `compared` with the two-sided result, a name only
in the old map gets `only_in_old`, a name only in the new map gets
`only_in_new`, and every one-sided entry has `has_differences = true`. -/
theorem workbook_comparison_spec (old_sheets new_sheets : SheetMap) :
    List.Sorted (· ≤ ·)
      ((workbook_comparisons old_sheets new_sheets).map SheetComparison.name) ∧
    ((workbook_comparisons old_sheets new_sheets).map SheetComparison.name).Nodup ∧
    (∀ s : String,
      s ∈ (workbook_comparisons old_sheets new_sheets).map SheetComparison.name ↔
        (s ∈ old_sheets.map Prod.fst ∨ s ∈ new_sheets.map Prod.fst)) ∧
    (∀ c ∈ workbook_comparisons old_sheets new_sheets,
      (c.name ∈ old_sheets.map Prod.fst → c.name ∈ new_sheets.map Prod.fst →
        c.status = SheetStatus.compared ∧
        c.diff_grid = (compare_sheets (lookup_grid old_sheets c.name)
          (lookup_grid new_sheets c.name)).1 ∧
        c.has_differences = (compare_sheets (lookup_grid old_sheets c.name)
          (lookup_grid new_sheets c.name)).2) ∧
      (c.name ∈ old_sheets.map Prod.fst → c.name ∉ new_sheets.map Prod.fst →
        c.status = SheetStatus.only_in_old ∧ c.has_differences = true) ∧
      (c.name ∉ old_sheets.map Prod.fst → c.name ∈ new_sheets.map Prod.fst →
        c.status = SheetStatus.only_in_new ∧ c.has_differences = true)) ∧
    (∀ old2 new2 : SheetMap, old2.Perm old_sheets → new2.Perm new_sheets →
      (old_sheets.map Prod.fst).Nodup → (new_sheets.map Prod.fst).Nodup →
      workbook_comparisons old2 new2 = workbook_comparisons old_sheets new_sheets) := by
  refine ⟨?_, ?_, ?_, ?_, ?_⟩
  · rw [workbook_names]
    exact List.sorted_insertionSort _ _
  · rw [workbook_names]
    exact ((List.perm_insertionSort _ _).nodup_iff).mpr (List.nodup_dedup _)
  · intro s
    rw [workbook_names, (List.perm_insertionSort _ _).mem_iff, List.mem_dedup,
      List.mem_append]
  · intro c hc
    unfold workbook_comparisons at hc
    obtain ⟨a, _, rfl⟩ := List.mem_map.mp hc
    by_cases h1 : a ∈ old_sheets.map Prod.fst <;>
      by_cases h2 : a ∈ new_sheets.map Prod.fst
    · rw [if_pos ⟨h1, h2⟩]
      exact ⟨fun _ _ => ⟨rfl, rfl, rfl⟩, fun _ hn2 => absurd h2 hn2,
        fun hn1 _ => absurd h1 hn1⟩
    · rw [if_neg (fun hb => h2 hb.2), if_pos h1]
      exact ⟨fun _ h2a => absurd h2a h2, fun _ _ => ⟨rfl, rfl⟩,
        fun hn1 _ => absurd h1 hn1⟩
    · rw [if_neg (fun hb => h1 hb.1), if_neg h1]
      exact ⟨fun h1a _ => absurd h1a h1, fun h1a _ => absurd h1a h1,
        fun _ _ => ⟨rfl, rfl⟩⟩
    · rw [if_neg (fun hb => h1 hb.1), if_neg h1]
      exact ⟨fun h1a _ => absurd h1a h1, fun h1a _ => absurd h1a h1,
        fun _ h2a => absurd h2a h2⟩
  · intro old2 new2 ho hn ndo ndn
    exact workbook_comparisons_perm old2 new2 old_sheets new_sheets ho hn ndo ndn

end ExcelDiff
